import Mathlib

/-!
Verification of the offline-first synchronization subsystem of the
GrimorioDnDNext spell-compendium app: the IndexedDB-backed cache store
(src/lib/cacheManager.ts), the pending-operation queue and its drain
(src/hooks/useNetworkStatus.ts, syncPendingOperations), and the
favorites/grimoire manager (src/hooks/useFavoritePresetsWithCache.ts).

Modelling conventions:
- An IndexedDB object store is modelled as a list of records kept sorted
  by the primary key (a string), which is how IndexedDB physically orders
  records.  A put is a sorted insert-or-replace.  getAll on a secondary
  index with a fixed index value returns the matching records ordered by
  (index key, primary key); with the index value fixed this is primary-key
  order, i.e. a plain filter of the key-sorted store list.
- Machine numbers (Date.now() timestamps, ttl milliseconds) are Int.
- JS truthiness matters in one place: the spell-cache read tests
  "!cached.ttl", which is true when ttl is undefined or 0.
- Remote (Supabase) calls are modelled by their outcome, passed in as a
  parameter (a success flag, or the returned row), and by the list of
  calls a code path issues.
-/

namespace GrimoireSync

/-- SpellClass from src/hooks/useSpells.ts. -/
structure SpellClass where
  classe : String
  magia : String
deriving DecidableEq, Repr

/-- Spell from src/hooks/useSpells.ts. -/
structure Spell where
  id : String
  name : String
  level : Int
  school : String
  castingtime : String
  range : String
  components : List String
  duration : String
  description : Option String
  atHigherLevels : Option String
  classes : List String
  classesDetailed : List SpellClass
  source : String
  ritual : Option Bool
  concentration : Option Bool
deriving DecidableEq, Repr

/-- FavoritePreset from src/hooks/useFavoritePresets.ts. -/
structure FavoritePreset where
  id : String
  name : String
  description : Option String
  spell_ids : List String
  user_id : String
  created_at : String
  updated_at : String
deriving DecidableEq, Repr

/-- The five values of PendingOperation.type (src/lib/cacheManager.ts). -/
inductive PendingOpType where
  | CREATE_PRESET
  | UPDATE_PRESET
  | DELETE_PRESET
  | ADD_SPELL
  | REMOVE_SPELL
deriving DecidableEq, Repr

/-- The string form of the operation type, used to build the record id. -/
def PendingOpType.str : PendingOpType → String
  | .CREATE_PRESET => "CREATE_PRESET"
  | .UPDATE_PRESET => "UPDATE_PRESET"
  | .DELETE_PRESET => "DELETE_PRESET"
  | .ADD_SPELL => "ADD_SPELL"
  | .REMOVE_SPELL => "REMOVE_SPELL"

/-- The updates argument of updatePreset: optional name, description and
spell_ids fields (src/hooks/useFavoritePresetsWithCache.ts line 220). -/
structure PresetUpdates where
  name : Option String
  description : Option String
  spell_ids : Option (List String)
deriving DecidableEq, Repr

/-- Payload shapes of pending operations, per enqueue site:
CREATE_PRESET carries the creation row without an id, UPDATE_PRESET
carries the target id plus the updates object, DELETE_PRESET carries the
target id. -/
inductive OpData where
  | createPayload (name : String) (description : Option String)
      (user_id : String) (spell_ids : List String)
  | updatePayload (id : String) (updates : PresetUpdates)
  | deletePayload (id : String)
deriving DecidableEq, Repr

/-- PendingOperation from src/lib/cacheManager.ts. -/
structure PendingOperation where
  id : String
  type : PendingOpType
  data : OpData
  timestamp : Int
  user_id : String
deriving DecidableEq, Repr

/-- A record of the spells object store: CachedData of Spell spread with
the spell id as primary key (cacheSpells). -/
structure SpellRecord where
  data : Spell
  cached_at : Int
  ttl : Option Int
  id : String
deriving DecidableEq, Repr

/-- A record of the favorite_presets object store: CachedData of
FavoritePreset spread with the preset id as primary key and the user id
for the secondary index (cacheFavoritePresets). -/
structure PresetRecord where
  data : FavoritePreset
  cached_at : Int
  ttl : Option Int
  id : String
  user_id : String
deriving DecidableEq, Repr

/-- Lexicographic order on character lists, by code point. -/
def charListLt : List Char → List Char → Bool
  | _, [] => false
  | [], _ :: _ => true
  | a :: as, b :: bs =>
    if a < b then true
    else if b < a then false
    else charListLt as bs

/-- The order IndexedDB compares string keys with: code-unit
lexicographic order. -/
def keyLt (a b : String) : Bool :=
  charListLt a.data b.data

/-- IndexedDB put on a store kept sorted by its string primary key:
insert in key order, replacing the record with an equal key. -/
def putSorted {α : Type} (key : α → String) (r : α) : List α → List α
  | [] => [r]
  | x :: xs =>
    if key r == key x then r :: xs
    else if keyLt (key r) (key x) then r :: x :: xs
    else x :: putSorted key r xs

/-- The test String.prototype.startsWith performs, on code points. -/
def jsStartsWith (s pre : String) : Bool :=
  pre.data.isPrefixOf s.data

/-- The validity test getCachedSpells applies to a record:
"!cached.ttl || (now - cached.cached_at) < cached.ttl".  In JS, !ttl is
true when ttl is undefined or 0, so a zero ttl short-circuits the age
comparison exactly like an absent one. -/
def entryValid (now cached_at : Int) : Option Int → Bool
  | none => true
  | some t => t == 0 || decide (now - cached_at < t)

/-- cacheSpells (src/lib/cacheManager.ts line 85): put every spell with
the shared write timestamp and a 24-hour ttl. -/
def cacheSpells (store : List SpellRecord) (spells : List Spell) (now : Int) :
    List SpellRecord :=
  spells.foldl
    (fun st s =>
      putSorted SpellRecord.id
        { data := s, cached_at := now, ttl := some (24 * 60 * 60 * 1000), id := s.id } st)
    store

/-- The record list getCachedSpells keeps after its ttl filter. -/
def validSpellRecords (store : List SpellRecord) (now : Int) : List SpellRecord :=
  store.filter (fun r => entryValid now r.cached_at r.ttl)

/-- getCachedSpells (src/lib/cacheManager.ts line 106): getAll on the
spells store, drop expired records, return the wrapped data. -/
def getCachedSpells (store : List SpellRecord) (now : Int) : List Spell :=
  (validSpellRecords store now).map SpellRecord.data

/-- clearUserPresets (src/lib/cacheManager.ts line 190): a cursor over
the user_id index deleting every record of that user. -/
def clearUserPresets (store : List PresetRecord) (userId : String) :
    List PresetRecord :=
  store.filter (fun r => !(r.user_id == userId))

/-- The record cacheFavoritePresets writes for one preset: CachedData
with no ttl, spread with the preset id and the user id. -/
def presetRecord (p : FavoritePreset) (userId : String) (now : Int) : PresetRecord :=
  { data := p, cached_at := now, ttl := none, id := p.id, user_id := userId }

/-- cacheFavoritePresets (src/lib/cacheManager.ts line 130): clear the
user's existing records, then put each preset with the shared write
timestamp. -/
def cacheFavoritePresets (store : List PresetRecord) (presets : List FavoritePreset)
    (userId : String) (now : Int) : List PresetRecord :=
  presets.foldl
    (fun st p => putSorted PresetRecord.id (presetRecord p userId now) st)
    (clearUserPresets store userId)

/-- getCachedFavoritePresets (src/lib/cacheManager.ts line 171): getAll
on the user_id index, return the wrapped data of every match.  The source
applies no ttl filter on this path. -/
def getCachedFavoritePresets (store : List PresetRecord) (userId : String) :
    List FavoritePreset :=
  (store.filter (fun r => r.user_id == userId)).map PresetRecord.data

/-- addPendingOperation (src/lib/cacheManager.ts line 254): the record id
is the operation type, Date.now() and a random component joined by
underscores; the timestamp field is Date.now(). -/
def addPendingOperation (store : List PendingOperation) (ty : PendingOpType)
    (payload : OpData) (userId : String) (now : Int) (rand : String) :
    List PendingOperation × String :=
  let id := ty.str ++ "_" ++ toString now ++ "_" ++ rand
  (putSorted PendingOperation.id
    { id := id, type := ty, data := payload, timestamp := now, user_id := userId }
    store, id)

/-- getPendingOperations (src/lib/cacheManager.ts line 272): getAll on
the user_id index.  With the index value fixed, IndexedDB returns the
matches in primary-key order, which the key-sorted store list realizes as
a plain filter; the declared timestamp index is not consulted. -/
def getPendingOperations (store : List PendingOperation) (userId : String) :
    List PendingOperation :=
  store.filter (fun op => op.user_id == userId)

/-- removePendingOperation (src/lib/cacheManager.ts line 287): delete by
primary key. -/
def removePendingOperation (store : List PendingOperation) (id : String) :
    List PendingOperation :=
  store.filter (fun op => !(op.id == id))

/-- The NetworkStatus state of useNetworkStatus
(src/hooks/useNetworkStatus.ts). -/
structure NetworkStatus where
  isOnline : Bool
  isConnected : Bool
  pendingOperations : Nat
  lastSyncTime : Option Int
  syncing : Bool
deriving DecidableEq, Repr

/-- What one drain pass over the queue produces: the two counters of
syncPendingOperations and the pending_operations store it leaves behind. -/
structure SyncOutcome where
  successCount : Nat
  failureCount : Nat
  store : List PendingOperation
deriving DecidableEq, Repr

/-- The for-loop of syncPendingOperations
(src/hooks/useNetworkStatus.ts line 486): each operation is tried in
list order; on success it is removed from the store and the success
counter bumped, on a thrown error it is left in place and the failure
counter bumped, and the loop continues either way.  The remote outcome of
processOperation is abstracted by the succeeds predicate. -/
def drainGo (succeeds : PendingOperation → Bool) :
    List PendingOperation → SyncOutcome → SyncOutcome
  | [], acc => acc
  | op :: rest, acc =>
    if succeeds op then
      drainGo succeeds rest
        ⟨acc.successCount + 1, acc.failureCount,
         removePendingOperation acc.store op.id⟩
    else
      drainGo succeeds rest ⟨acc.successCount, acc.failureCount + 1, acc.store⟩

/-- syncPendingOperations (src/hooks/useNetworkStatus.ts line 476): read
the user's pending operations, then run the drain loop over them against
the current store. -/
def syncPendingOperations (succeeds : PendingOperation → Bool)
    (store : List PendingOperation) (userId : String) : SyncOutcome :=
  drainGo succeeds (getPendingOperations store userId) ⟨0, 0, store⟩

/-- The early return of syncPendingOperations:
"if (!user || !status.isConnected) return false".  The syncing flag is
not part of this test. -/
def syncEarlyReturn (hasUser : Bool) (s : NetworkStatus) : Bool :=
  !hasUser || !s.isConnected

/-- The auto-sync condition inside the periodic checkConnection effect
(src/hooks/useNetworkStatus.ts line 605): after the probe result is
stored, a drain is invoked when the probe succeeded and the previously
rendered pending count is non-zero.  The syncing flag is not part of this
test either. -/
def autoSyncTriggered (connected : Bool) (s : NetworkStatus) : Bool :=
  connected && decide (0 < s.pendingOperations)

/-- A drain actually starts from the periodic check when the effect
invokes syncPendingOperations and its early return does not fire, with
isConnected already updated to the probe result. -/
def drainStarts (hasUser connected : Bool) (s : NetworkStatus) : Bool :=
  autoSyncTriggered connected s &&
    !(syncEarlyReturn hasUser { s with isConnected := connected })

/-- The remote (Supabase) calls the favorites manager can issue. -/
inductive RemoteCall where
  | insertPreset (name : String) (description : Option String)
      (user_id : String) (spell_ids : List String)
  | updatePresetById (id : String) (user_id : String) (updates : PresetUpdates)
  | deletePresetById (id : String) (user_id : String)
deriving DecidableEq, Repr

/-- The state the useFavoritePresetsWithCache hook owns: the in-memory
preset list, the active preset id, and the two cache-manager stores it
touches (pending operations and the preset cache), plus the error
message.  Operations are modelled with a signed-in user, so the
"if (!user) return" guards do not appear. -/
structure HookState where
  presets : List FavoritePreset
  activePresetId : Option String
  pendingStore : List PendingOperation
  presetCache : List PresetRecord
  errorMsg : Option String
deriving DecidableEq, Repr

/-- Result of updatePreset or deletePreset: the new hook state, the
remote calls the path issued, and the returned boolean. -/
structure MutationResult where
  state : HookState
  calls : List RemoteCall
  ok : Bool
deriving DecidableEq, Repr

/-- Result of createPreset: the returned value is the created row or
null. -/
structure CreateResult where
  state : HookState
  calls : List RemoteCall
  ret : Option FavoritePreset
deriving DecidableEq, Repr

/-- The object spread { ...preset, ...updates }: each field present in
updates overwrites the preset's field. -/
def applyUpdates (p : FavoritePreset) (u : PresetUpdates) : FavoritePreset :=
  { p with
    name := u.name.getD p.name
    description := match u.description with
      | some d => some d
      | none => p.description
    spell_ids := u.spell_ids.getD p.spell_ids }

/-- updatePreset (src/hooks/useFavoritePresetsWithCache.ts line 220).
Online with a non-offline id: remote update, then on success map the
updates over the preset list and rewrite the preset cache; on a remote
error set the error message, leave the state alone and return false.
Otherwise: map the updates (also refreshing updated_at) over the list,
rewrite the preset cache, enqueue an UPDATE_PRESET operation unless the
id carries the offline_ prefix, and return true. -/
def updatePreset (isConnected : Bool) (userId : String) (remoteOk : Bool)
    (nowIso : String) (nowMs : Int) (rand : String)
    (id : String) (updates : PresetUpdates) (st : HookState) : MutationResult :=
  if isConnected && !(jsStartsWith id "offline_") then
    if remoteOk then
      let updatedPresets := st.presets.map
        (fun p => if p.id == id then applyUpdates p updates else p)
      { state := { st with
          presets := updatedPresets
          presetCache := cacheFavoritePresets st.presetCache updatedPresets userId nowMs }
        calls := [RemoteCall.updatePresetById id userId updates]
        ok := true }
    else
      { state := { st with errorMsg := some "Failed to update preset" }
        calls := [RemoteCall.updatePresetById id userId updates]
        ok := false }
  else
    let updatedPresets := st.presets.map
      (fun p => if p.id == id then
          { applyUpdates p updates with updated_at := nowIso } else p)
    let st1 := { st with
      presets := updatedPresets
      presetCache := cacheFavoritePresets st.presetCache updatedPresets userId nowMs }
    if !(jsStartsWith id "offline_") then
      { state := { st1 with
          pendingStore := (addPendingOperation st1.pendingStore .UPDATE_PRESET
            (.updatePayload id updates) userId nowMs rand).1 }
        calls := []
        ok := true }
    else
      { state := st1, calls := [], ok := true }

/-- deletePreset (src/hooks/useFavoritePresetsWithCache.ts line 274).
Online with a non-offline id: remote delete, then on success filter the
preset list, rewrite the preset cache and move the active preset to the
first remaining one when the deleted preset was active; on a remote error
set the error message, leave the state alone and return false.
Otherwise: same local removal and active-preset fallback, enqueue a
DELETE_PRESET operation unless the id carries the offline_ prefix, and
return true. -/
def deletePreset (isConnected : Bool) (userId : String) (remoteOk : Bool)
    (nowMs : Int) (rand : String) (id : String) (st : HookState) : MutationResult :=
  if isConnected && !(jsStartsWith id "offline_") then
    if remoteOk then
      let updatedPresets := st.presets.filter (fun p => !(p.id == id))
      let newActive :=
        if st.activePresetId == some id then
          (updatedPresets.head?).map FavoritePreset.id
        else st.activePresetId
      { state := { st with
          presets := updatedPresets
          activePresetId := newActive
          presetCache := cacheFavoritePresets st.presetCache updatedPresets userId nowMs }
        calls := [RemoteCall.deletePresetById id userId]
        ok := true }
    else
      { state := { st with errorMsg := some "Failed to delete preset" }
        calls := [RemoteCall.deletePresetById id userId]
        ok := false }
  else
    let updatedPresets := st.presets.filter (fun p => !(p.id == id))
    let newActive :=
      if st.activePresetId == some id then
        (updatedPresets.head?).map FavoritePreset.id
      else st.activePresetId
    let st1 := { st with
      presets := updatedPresets
      activePresetId := newActive
      presetCache := cacheFavoritePresets st.presetCache updatedPresets userId nowMs }
    if !(jsStartsWith id "offline_") then
      { state := { st1 with
          pendingStore := (addPendingOperation st1.pendingStore .DELETE_PRESET
            (.deletePayload id) userId nowMs rand).1 }
        calls := []
        ok := true }
    else
      { state := st1, calls := [], ok := true }

/-- createPreset (src/hooks/useFavoritePresetsWithCache.ts line 157).
Online: remote insert (the returned row is remoteRow; none models a
remote error), then on success append the row, make it active and rewrite
the preset cache; on failure set the error message, leave the state alone
and return null.  Offline: synthesize an offline_-prefixed preset, append
it, make it active, rewrite the preset cache, enqueue a CREATE_PRESET
operation carrying the creation payload (no id), and return the offline
preset. -/
def createPreset (isConnected : Bool) (userId : String)
    (remoteRow : Option FavoritePreset) (nowIso : String) (nowMs : Int)
    (rand : String) (name : String) (descr : Option String) (st : HookState) :
    CreateResult :=
  if isConnected then
    match remoteRow with
    | some row =>
      let updatedPresets := st.presets ++ [row]
      { state := { st with
          presets := updatedPresets
          activePresetId := some row.id
          presetCache := cacheFavoritePresets st.presetCache updatedPresets userId nowMs }
        calls := [RemoteCall.insertPreset name descr userId []]
        ret := some row }
    | none =>
      { state := { st with errorMsg := some "Failed to create preset" }
        calls := [RemoteCall.insertPreset name descr userId []]
        ret := none }
  else
    let offlinePreset : FavoritePreset :=
      { id := "offline_" ++ userId ++ "_" ++ toString nowMs
        name := name
        description := descr
        spell_ids := []
        user_id := userId
        created_at := nowIso
        updated_at := nowIso }
    let updatedPresets := st.presets ++ [offlinePreset]
    let st1 := { st with
      presets := updatedPresets
      activePresetId := some offlinePreset.id
      presetCache := cacheFavoritePresets st.presetCache updatedPresets userId nowMs }
    { state := { st1 with
        pendingStore := (addPendingOperation st1.pendingStore .CREATE_PRESET
          (.createPayload name descr userId []) userId nowMs rand).1 }
      calls := []
      ret := some offlinePreset }

/-- createDefaultOfflinePreset
(src/hooks/useFavoritePresetsWithCache.ts line 122): install a single
offline_-prefixed default preset and enqueue a CREATE_PRESET operation
for it. -/
def createDefaultOfflinePreset (userId : String) (nowIso : String) (nowMs : Int)
    (rand : String) (st : HookState) : HookState :=
  let defaultPreset : FavoritePreset :=
    { id := "offline_" ++ userId ++ "_" ++ toString nowMs
      name := "MY GRIMOIRE (Offline)"
      description := some "Your personal collection of favorite spells"
      spell_ids := []
      user_id := userId
      created_at := nowIso
      updated_at := nowIso }
  let st1 := { st with
    presets := [defaultPreset]
    activePresetId := some defaultPreset.id
    presetCache := cacheFavoritePresets st.presetCache [defaultPreset] userId nowMs }
  { st1 with
    pendingStore := (addPendingOperation st1.pendingStore .CREATE_PRESET
      (.createPayload "MY GRIMOIRE"
        (some "Your personal collection of favorite spells") userId [])
      userId nowMs rand).1 }

/-- The state-changing entry points that can touch the pending-operation
queue, with their environment (connectivity, remote outcome, clock,
random component) carried as data. -/
inductive Action where
  | actCreate (isConnected : Bool) (remoteRow : Option FavoritePreset)
      (nowIso : String) (nowMs : Int) (rand : String)
      (name : String) (descr : Option String)
  | actUpdate (isConnected remoteOk : Bool) (nowIso : String) (nowMs : Int)
      (rand : String) (id : String) (updates : PresetUpdates)
  | actDelete (isConnected remoteOk : Bool) (nowMs : Int) (rand : String)
      (id : String)
  | actDefaultOffline (nowIso : String) (nowMs : Int) (rand : String)
  | actDrain (succeeds : PendingOperation → Bool)

/-- The state transition an action performs (return values and remote
calls projected away; a drain keeps the store syncPendingOperations
leaves behind). -/
def Action.step (userId : String) (a : Action) (st : HookState) : HookState :=
  match a with
  | .actCreate c row iso ms rand name descr =>
    (createPreset c userId row iso ms rand name descr st).state
  | .actUpdate c ok iso ms rand id upd =>
    (updatePreset c userId ok iso ms rand id upd st).state
  | .actDelete c ok ms rand id =>
    (deletePreset c userId ok ms rand id st).state
  | .actDefaultOffline iso ms rand =>
    createDefaultOfflinePreset userId iso ms rand st
  | .actDrain succeeds =>
    { st with pendingStore := (syncPendingOperations succeeds st.pendingStore userId).store }

/-- Run a sequence of actions from an initial hook state. -/
def runActions (userId : String) (acts : List Action) (st : HookState) : HookState :=
  acts.foldl (fun s a => Action.step userId a s) st

/-- Whether a pending operation references an offline_-prefixed preset id
as its update or delete target. -/
def targetsOfflineId (op : PendingOperation) : Bool :=
  match op.data with
  | .updatePayload id _ => jsStartsWith id "offline_"
  | .deletePayload id => jsStartsWith id "offline_"
  | .createPayload _ _ _ _ => false

/-- Whether the queue holds any UPDATE_PRESET or DELETE_PRESET operation
targeting an offline_-prefixed id. -/
def hasOfflineTarget (store : List PendingOperation) : Bool :=
  store.any targetsOfflineId

/-- The one failure the durable store's initialization can produce: the
indexedDB.open request errors (storage unavailable). -/
inductive DBError where
  | openFailed
deriving DecidableEq, Repr

/-- CacheManager.initialize (src/lib/cacheManager.ts line 32): the open
request either succeeds, setting this.db (the returned flag), or errors,
rejecting the promise.  ensureInitialized awaits this without catching,
so the rejection propagates to every caller. -/
def initDB (storageAvailable : Bool) : Except DBError Bool :=
  if storageAvailable then Except.ok true else Except.error DBError.openFailed

/-- getCachedSpells as called through ensureInitialized: the rejection of
a failed open propagates; only after a successful open (db set) does the
read run, and the "if (!this.db) return []" fallback is the residual
branch. -/
def getCachedSpellsOp (storageAvailable : Bool) (store : List SpellRecord)
    (now : Int) : Except DBError (List Spell) :=
  match initDB storageAvailable with
  | .error e => .error e
  | .ok dbSet => if dbSet then .ok (getCachedSpells store now) else .ok []

/-- getCachedFavoritePresets through ensureInitialized, same shape. -/
def getCachedFavoritePresetsOp (storageAvailable : Bool)
    (store : List PresetRecord) (userId : String) :
    Except DBError (List FavoritePreset) :=
  match initDB storageAvailable with
  | .error e => .error e
  | .ok dbSet => if dbSet then .ok (getCachedFavoritePresets store userId) else .ok []

/-- cacheSpells through ensureInitialized: a write, returning the store
it leaves behind (unchanged when the db guard fires). -/
def cacheSpellsOp (storageAvailable : Bool) (store : List SpellRecord)
    (spells : List Spell) (now : Int) : Except DBError (List SpellRecord) :=
  match initDB storageAvailable with
  | .error e => .error e
  | .ok dbSet => if dbSet then .ok (cacheSpells store spells now) else .ok store

/-- Spec-side predicate (section 8, queue ordering): the operation list
is sorted by timestamp ascending. -/
def timestampsAscending : List PendingOperation → Bool
  | [] => true
  | [_] => true
  | a :: b :: rest =>
    decide (a.timestamp ≤ b.timestamp) && timestampsAscending (b :: rest)

/-- A sample spell for concrete witnesses. -/
def sampleSpell : Spell :=
  { id := "s1"
    name := "Fire Bolt"
    level := 0
    school := "Evocation"
    castingtime := "1 action"
    range := "120 feet"
    components := ["V", "S"]
    duration := "Instantaneous"
    description := some "A mote of fire."
    atHigherLevels := none
    classes := ["Wizard"]
    classesDetailed := []
    source := "PHB"
    ritual := none
    concentration := none }

/-- A sample preset for user u1 with id pA. -/
def presetA : FavoritePreset :=
  { id := "pA", name := "Grimoire A", description := none
    spell_ids := ["s1"], user_id := "u1"
    created_at := "2024-01-01", updated_at := "2024-01-01" }

/-- A second sample preset for user u1 with id pB. -/
def presetB : FavoritePreset :=
  { id := "pB", name := "Grimoire B", description := some "old"
    spell_ids := [], user_id := "u1"
    created_at := "2024-01-02", updated_at := "2024-01-02" }

/-- A third sample preset for user u1 with id pC. -/
def presetC : FavoritePreset :=
  { id := "pC", name := "Grimoire C", description := none
    spell_ids := ["s1", "s2"], user_id := "u1"
    created_at := "2024-01-03", updated_at := "2024-01-03" }

/-- A sample preset owned by the other user u2. -/
def presetW : FavoritePreset :=
  { id := "pW", name := "Grimoire W", description := none
    spell_ids := [], user_id := "u2"
    created_at := "2024-01-01", updated_at := "2024-01-01" }

/-- The pending store after user u1 enqueues a DELETE_PRESET at
timestamp 100. -/
def c1Store1 : List PendingOperation :=
  (addPendingOperation [] .DELETE_PRESET (.deletePayload "p1") "u1" 100 "r1").1

/-- The pending store after user u1 then enqueues a CREATE_PRESET at the
later timestamp 200. -/
def c1Store2 : List PendingOperation :=
  (addPendingOperation c1Store1 .CREATE_PRESET
    (.createPayload "G" none "u1" []) "u1" 200 "r2").1

/-- A spell-cache record written at time 0 with a zero ttl. -/
def zeroTtlRecord : SpellRecord :=
  { data := sampleSpell, cached_at := 0, ttl := some 0, id := "s1" }

/-- A preset-cache record for user u1 written at time 0 with a ttl of 5
milliseconds. -/
def expiredPresetRecord : PresetRecord :=
  { data := presetA, cached_at := 0, ttl := some 5, id := "pA", user_id := "u1" }

/-- A concrete network status: online, connected, one pending operation,
and a drain already marked in progress. -/
def busyStatus : NetworkStatus :=
  { isOnline := true, isConnected := true, pendingOperations := 1
    lastSyncTime := none, syncing := true }

/-- A spell-cache record written at time 0 with a positive ttl of 5
milliseconds. -/
def ttlRecord5 : SpellRecord :=
  { data := sampleSpell, cached_at := 0, ttl := some 5, id := "s1" }

/-- A concrete preset cache holding an old record of user u1 (preset B)
and a record of user u2 (preset W). -/
def c4Store : List PresetRecord :=
  [{ data := presetB, cached_at := 0, ttl := none, id := "pB", user_id := "u1" },
   { data := presetW, cached_at := 0, ttl := none, id := "pW", user_id := "u2" }]

/-- A concrete hook state with two presets of user u1, pA active, and
empty stores. -/
def st0 : HookState :=
  { presets := [presetA, presetB]
    activePresetId := some "pA"
    pendingStore := []
    presetCache := []
    errorMsg := none }

theorem mem_putSorted {α : Type} (key : α → String) (r a : α) (l : List α)
    (h : a ∈ putSorted key r l) : a = r ∨ a ∈ l := by
  induction l with
  | nil =>
    simp only [putSorted, List.mem_singleton] at h
    exact Or.inl h
  | cons x xs ih =>
    simp only [putSorted] at h
    by_cases h1 : (key r == key x) = true
    · rw [if_pos h1] at h
      rcases List.mem_cons.mp h with h | h
      · exact Or.inl h
      · exact Or.inr (List.mem_cons_of_mem x h)
    · rw [if_neg h1] at h
      by_cases h2 : keyLt (key r) (key x) = true
      · rw [if_pos h2] at h
        rcases List.mem_cons.mp h with h | h
        · exact Or.inl h
        · exact Or.inr h
      · rw [if_neg h2] at h
        rcases List.mem_cons.mp h with h | h
        · exact Or.inr (by simp [h])
        · rcases ih h with h | h
          · exact Or.inl h
          · exact Or.inr (List.mem_cons_of_mem x h)

theorem self_mem_putSorted {α : Type} (key : α → String) (r : α) (l : List α) :
    r ∈ putSorted key r l := by
  induction l with
  | nil => simp [putSorted]
  | cons x xs ih =>
    simp only [putSorted]
    by_cases h1 : (key r == key x) = true
    · rw [if_pos h1]; exact List.mem_cons_self r xs
    · rw [if_neg h1]
      by_cases h2 : keyLt (key r) (key x) = true
      · rw [if_pos h2]; exact List.mem_cons_self r (x :: xs)
      · rw [if_neg h2]; exact List.mem_cons_of_mem x ih

theorem putSorted_perm {α : Type} (key : α → String) (r : α) (l : List α)
    (h : key r ∉ l.map key) : List.Perm (putSorted key r l) (r :: l) := by
  induction l with
  | nil => exact List.Perm.refl _
  | cons x xs ih =>
    have h1 : ¬ key r = key x := by
      intro hx
      exact h (by simp [hx])
    have h2 : key r ∉ xs.map key := by
      intro hx
      exact h (by simp [hx])
    simp only [putSorted]
    rw [if_neg (by simp [beq_iff_eq]; exact h1)]
    by_cases h3 : keyLt (key r) (key x) = true
    · rw [if_pos h3]
    · rw [if_neg h3]
      exact ((ih h2).cons x).trans (List.Perm.swap r x xs)

theorem putSorted_filter {α : Type} (key : α → String) (p : α → Bool) (r : α)
    (l : List α) (hp : p r = false) (h : key r ∉ l.map key) :
    (putSorted key r l).filter p = l.filter p := by
  induction l with
  | nil => simp [putSorted, hp]
  | cons x xs ih =>
    have h1 : ¬ key r = key x := by
      intro hx
      exact h (by simp [hx])
    have h2 : key r ∉ xs.map key := by
      intro hx
      exact h (by simp [hx])
    simp only [putSorted]
    rw [if_neg (by simp [beq_iff_eq]; exact h1)]
    by_cases h3 : keyLt (key r) (key x) = true
    · rw [if_pos h3]
      simp [List.filter_cons, hp]
    · rw [if_neg h3]
      simp [List.filter_cons, ih h2]

theorem drainGo_store (succeeds : PendingOperation → Bool)
    (l : List PendingOperation) (acc : SyncOutcome) :
    (drainGo succeeds l acc).store =
      acc.store.filter
        (fun r => !((l.filter succeeds).any (fun op => op.id == r.id))) := by
  induction l generalizing acc with
  | nil => simp [drainGo]
  | cons op rest ih =>
    by_cases h : succeeds op = true
    · have e : drainGo succeeds (op :: rest) acc =
          drainGo succeeds rest
            ⟨acc.successCount + 1, acc.failureCount,
             removePendingOperation acc.store op.id⟩ := by
        simp [drainGo, h]
      rw [e, ih]
      simp only [removePendingOperation, List.filter_filter]
      refine List.filter_congr ?_
      intro r _
      have hb : (op.id == r.id) = (r.id == op.id) := by
        by_cases hid : op.id = r.id
        · simp [hid]
        · have hid2 : ¬ r.id = op.id := fun hx => hid hx.symm
          simp [beq_eq_false_iff_ne.mpr hid, beq_eq_false_iff_ne.mpr hid2]
      simp [List.filter_cons, h, Bool.and_comm, hb]
    · have e : drainGo succeeds (op :: rest) acc =
          drainGo succeeds rest
            ⟨acc.successCount, acc.failureCount + 1, acc.store⟩ := by
        simp [drainGo, h]
      rw [e, ih]
      refine List.filter_congr ?_
      intro r _
      simp [List.filter_cons, h]

theorem drainGo_successCount (succeeds : PendingOperation → Bool)
    (l : List PendingOperation) (acc : SyncOutcome) :
    (drainGo succeeds l acc).successCount =
      acc.successCount + (l.filter succeeds).length := by
  induction l generalizing acc with
  | nil => simp [drainGo]
  | cons op rest ih =>
    by_cases h : succeeds op = true
    · have e : drainGo succeeds (op :: rest) acc =
          drainGo succeeds rest
            ⟨acc.successCount + 1, acc.failureCount,
             removePendingOperation acc.store op.id⟩ := by
        simp [drainGo, h]
      rw [e, ih]
      simp [List.filter_cons, h]
      omega
    · have e : drainGo succeeds (op :: rest) acc =
          drainGo succeeds rest
            ⟨acc.successCount, acc.failureCount + 1, acc.store⟩ := by
        simp [drainGo, h]
      rw [e, ih]
      simp [List.filter_cons, h]

theorem drainGo_failureCount (succeeds : PendingOperation → Bool)
    (l : List PendingOperation) (acc : SyncOutcome) :
    (drainGo succeeds l acc).failureCount =
      acc.failureCount + (l.filter (fun op => !succeeds op)).length := by
  induction l generalizing acc with
  | nil => simp [drainGo]
  | cons op rest ih =>
    by_cases h : succeeds op = true
    · have e : drainGo succeeds (op :: rest) acc =
          drainGo succeeds rest
            ⟨acc.successCount + 1, acc.failureCount,
             removePendingOperation acc.store op.id⟩ := by
        simp [drainGo, h]
      rw [e, ih]
      simp [List.filter_cons, h]
    · have e : drainGo succeeds (op :: rest) acc =
          drainGo succeeds rest
            ⟨acc.successCount, acc.failureCount + 1, acc.store⟩ := by
        simp [drainGo, h]
      rw [e, ih]
      simp [List.filter_cons, h]
      omega

theorem cachePresets_foldl_perm (P : List FavoritePreset) (U : String) (now : Int)
    (st : List PresetRecord)
    (hN : (P.map FavoritePreset.id).Nodup)
    (hF : ∀ p ∈ P, p.id ∉ st.map PresetRecord.id) :
    List.Perm
      (P.foldl (fun s p => putSorted PresetRecord.id (presetRecord p U now) s) st)
      (P.map (fun p => presetRecord p U now) ++ st) := by
  induction P generalizing st with
  | nil => simp
  | cons p rest ih =>
    simp only [List.foldl_cons, List.map_cons, List.cons_append]
    have hfresh : PresetRecord.id (presetRecord p U now) ∉ st.map PresetRecord.id := by
      simpa [presetRecord] using hF p (List.mem_cons_self p rest)
    have hper := putSorted_perm PresetRecord.id (presetRecord p U now) st hfresh
    have hN2 : (p.id :: rest.map FavoritePreset.id).Nodup := by
      rw [List.map_cons] at hN
      exact hN
    have hnodup := List.nodup_cons.mp hN2
    have hF' : ∀ q ∈ rest, q.id ∉
        (putSorted PresetRecord.id (presetRecord p U now) st).map PresetRecord.id := by
      intro q hq hmem
      have hmem2 : q.id ∈ (presetRecord p U now :: st).map PresetRecord.id :=
        ((hper.map PresetRecord.id).mem_iff).mp hmem
      have hmem3 : q.id ∈
          PresetRecord.id (presetRecord p U now) :: st.map PresetRecord.id := by
        rw [List.map_cons] at hmem2
        exact hmem2
      rcases List.mem_cons.mp hmem3 with hcase | hcase
      · have hpq : q.id = p.id := hcase
        have hq2 : q.id ∈ rest.map FavoritePreset.id :=
          List.mem_map.mpr ⟨q, hq, rfl⟩
        rw [hpq] at hq2
        exact hnodup.1 hq2
      · exact hF q (List.mem_cons_of_mem p hq) hcase
    exact ((ih (putSorted PresetRecord.id (presetRecord p U now) st) hnodup.2 hF').trans
      (List.Perm.append_left _ hper)).trans List.perm_middle

theorem cachePresets_foldl_filter (P : List FavoritePreset) (U : String) (now : Int)
    (st : List PresetRecord) (pr : PresetRecord → Bool)
    (h0 : ∀ p ∈ P, pr (presetRecord p U now) = false)
    (hF : ∀ p ∈ P, p.id ∉ st.map PresetRecord.id)
    (hN : (P.map FavoritePreset.id).Nodup) :
    (P.foldl (fun s p => putSorted PresetRecord.id (presetRecord p U now) s) st).filter pr =
      st.filter pr := by
  induction P generalizing st with
  | nil => rfl
  | cons p rest ih =>
    simp only [List.foldl_cons]
    have hfresh : PresetRecord.id (presetRecord p U now) ∉ st.map PresetRecord.id := by
      simpa [presetRecord] using hF p (List.mem_cons_self p rest)
    have hper := putSorted_perm PresetRecord.id (presetRecord p U now) st hfresh
    have hN2 : (p.id :: rest.map FavoritePreset.id).Nodup := by
      rw [List.map_cons] at hN
      exact hN
    have hnodup := List.nodup_cons.mp hN2
    have hF' : ∀ q ∈ rest, q.id ∉
        (putSorted PresetRecord.id (presetRecord p U now) st).map PresetRecord.id := by
      intro q hq hmem
      have hmem2 : q.id ∈ (presetRecord p U now :: st).map PresetRecord.id :=
        ((hper.map PresetRecord.id).mem_iff).mp hmem
      have hmem3 : q.id ∈
          PresetRecord.id (presetRecord p U now) :: st.map PresetRecord.id := by
        rw [List.map_cons] at hmem2
        exact hmem2
      rcases List.mem_cons.mp hmem3 with hcase | hcase
      · have hpq : q.id = p.id := hcase
        have hq2 : q.id ∈ rest.map FavoritePreset.id :=
          List.mem_map.mpr ⟨q, hq, rfl⟩
        rw [hpq] at hq2
        exact hnodup.1 hq2
      · exact hF q (List.mem_cons_of_mem p hq) hcase
    rw [ih (putSorted PresetRecord.id (presetRecord p U now) st)
      (fun q hq => h0 q (List.mem_cons_of_mem p hq)) hF' hnodup.2]
    exact putSorted_filter PresetRecord.id pr (presetRecord p U now) st
      (h0 p (List.mem_cons_self p rest)) hfresh

theorem mem_cachePresets_foldl (P : List FavoritePreset) (U : String) (now : Int)
    (st : List PresetRecord) (r : PresetRecord)
    (h : r ∈ P.foldl (fun s p => putSorted PresetRecord.id (presetRecord p U now) s) st) :
    r ∈ st ∨ r.ttl = none := by
  induction P generalizing st with
  | nil => exact Or.inl h
  | cons p rest ih =>
    rcases ih (putSorted PresetRecord.id (presetRecord p U now) st) h with h1 | h1
    · rcases mem_putSorted PresetRecord.id (presetRecord p U now) r st h1 with h2 | h2
      · right
        rw [h2]
        rfl
      · exact Or.inl h2
    · exact Or.inr h1

theorem filter_length_split {α : Type} (p : α → Bool) (l : List α) :
    (l.filter p).length + (l.filter (fun a => !p a)).length = l.length := by
  induction l with
  | nil => rfl
  | cons x xs ih =>
    cases h : p x <;> simp [List.filter_cons, h] <;> omega

theorem hasOfflineTarget_put (key : PendingOperation → String)
    (r : PendingOperation) (st : List PendingOperation)
    (hr : targetsOfflineId r = false) (hst : hasOfflineTarget st = false) :
    hasOfflineTarget (putSorted key r st) = false := by
  unfold hasOfflineTarget at *
  rw [List.any_eq_false] at *
  intro x hx
  rcases mem_putSorted key r x st hx with h | h
  · rw [h, hr]
    exact Bool.false_ne_true
  · exact hst x h

theorem hasOfflineTarget_filter (p : PendingOperation → Bool)
    (st : List PendingOperation) (hst : hasOfflineTarget st = false) :
    hasOfflineTarget (st.filter p) = false := by
  unfold hasOfflineTarget at *
  rw [List.any_eq_false] at *
  intro x hx
  exact hst x (List.mem_filter.mp hx).1

/-- C1: the claim says the pending-operation read returns a user's queued
operations ordered by timestamp ascending and that a drain replays them in
that order (FIFO).  Evaluating the embedded code on the failing input —
user u1 enqueues a DELETE_PRESET at timestamp 100 and then a
CREATE_PRESET at timestamp 200 — shows getPendingOperations returns the
operations in record-id order (the generated id begins with the operation
type string), so the later CREATE_PRESET comes back first, the list is
not timestamp-ascending, and the drain loop, which walks this very list,
replays the t=200 operation before the t=100 one. -/
theorem c1_queue_read_not_timestamp_ordered :
    (getPendingOperations c1Store2 "u1").map PendingOperation.timestamp = [200, 100] ∧
    (getPendingOperations c1Store2 "u1").map PendingOperation.type =
      [PendingOpType.CREATE_PRESET, PendingOpType.DELETE_PRESET] ∧
    timestampsAscending (getPendingOperations c1Store2 "u1") = false := by
  decide

/-- C2 counterexample: in the concrete status busyStatus the syncing flag
is set and one operation is pending, yet the periodic connection check
both triggers the auto-sync and passes the early return of
syncPendingOperations — a drain starts while syncing is true, refuting
"a drain is never started while the syncing flag is set". -/
theorem c2_counterexample_drain_starts_while_syncing :
    busyStatus.syncing = true ∧ drainStarts true true busyStatus = true := by
  decide

/-- C2 amended: the syncing flag is set for the duration of a drain and
cleared at the end, but nothing in the automatic path reads it: whether a
drain starts from the periodic check is independent of the flag, and
equals "probe connected, previously rendered pending count non-zero, and
a user present" — so every periodic pass with pending work starts a
drain, gated or not, rather than exactly once per transition. -/
theorem c2_amended_syncing_flag_not_consulted :
    ∀ (hasUser connected : Bool) (s : NetworkStatus) (b : Bool),
      drainStarts hasUser connected { s with syncing := b } =
        drainStarts hasUser connected s ∧
      drainStarts hasUser connected s =
        (connected && decide (0 < s.pendingOperations) && hasUser) := by
  intro hasUser connected s b
  constructor
  · rfl
  · cases hasUser <;> cases connected <;>
      simp [drainStarts, autoSyncTriggered, syncEarlyReturn]

/-- C5 counterexample: a cached spell entry carrying ttl = 0 is still
returned by a read at time cached_at + ttl + 1, because the source tests
"!cached.ttl", which treats a zero ttl like an absent one; the claim says
a read at that time does not return the entry. -/
theorem c5_counterexample_zero_ttl_never_expires :
    zeroTtlRecord.ttl = some 0 ∧
    getCachedSpells [zeroTtlRecord] (zeroTtlRecord.cached_at + 0 + 1) =
      [sampleSpell] := by
  decide

/-- C6 counterexample: a favorite_presets cache entry written at time 0
with ttl = 5 is already invalid under the expiry rule at read time 10
(at or past cached_at + ttl), yet the indexed preset read still returns
it — getCachedFavoritePresets applies no expiry filter at all (its result
does not even depend on the read time). -/
theorem c6_counterexample_indexed_read_returns_expired :
    expiredPresetRecord.ttl = some 5 ∧
    entryValid 10 expiredPresetRecord.cached_at expiredPresetRecord.ttl = false ∧
    getCachedFavoritePresets [expiredPresetRecord] "u1" = [presetA] := by
  decide

/-- C9: the claim says a failed store initialization degrades every cache
operation to a no-op (reads empty, writes skipped).  In the source,
ensureInitialized awaits initialize() without catching, so the rejection
of the failed indexedDB.open propagates out of every cache method — the
"if (!this.db) return ..." fallbacks are unreachable.  Evaluating the
embedded operations with storage unavailable: each rejects with the open
error instead of returning the empty result. -/
theorem c9_init_failure_rejects_instead_of_degrading :
    getCachedSpellsOp false [] 0 = Except.error DBError.openFailed ∧
    getCachedFavoritePresetsOp false [] "u1" = Except.error DBError.openFailed ∧
    cacheSpellsOp false [] [sampleSpell] 0 = Except.error DBError.openFailed :=
  ⟨rfl, rfl, rfl⟩

/-- C3: for a drain pass over a user's pending operations, on a store
whose record ids are unique (the object store is keyed by id): the
operations still queued for the user afterwards are exactly the ones
whose replay failed, in order; the reported failure count equals their
number; every read operation is processed (success and failure counts sum
to the number read, so one failure does not stop the pass); and an
operation whose replay succeeded is gone from the queue, never to be seen
by a later pass. -/
theorem c3_drain_pass_semantics (succeeds : PendingOperation → Bool)
    (store : List PendingOperation) (uid : String)
    (hids : (store.map PendingOperation.id).Nodup) :
    getPendingOperations (syncPendingOperations succeeds store uid).store uid =
      (getPendingOperations store uid).filter (fun op => !succeeds op) ∧
    (syncPendingOperations succeeds store uid).failureCount =
      ((getPendingOperations store uid).filter (fun op => !succeeds op)).length ∧
    (syncPendingOperations succeeds store uid).successCount +
        (syncPendingOperations succeeds store uid).failureCount =
      (getPendingOperations store uid).length ∧
    ∀ op ∈ getPendingOperations store uid, succeeds op = true →
      op ∉ getPendingOperations (syncPendingOperations succeeds store uid).store uid := by
  have hinj : ∀ a ∈ store, ∀ b ∈ store, a.id = b.id → a = b := by
    intro a ha b hb hab
    exact List.inj_on_of_nodup_map hids ha hb hab
  have hstore : (syncPendingOperations succeeds store uid).store =
      store.filter
        (fun r =>
          !(((getPendingOperations store uid).filter succeeds).any
            (fun op => op.id == r.id))) :=
    drainGo_store succeeds (getPendingOperations store uid) ⟨0, 0, store⟩
  have hmain : getPendingOperations (syncPendingOperations succeeds store uid).store uid =
      (getPendingOperations store uid).filter (fun op => !succeeds op) := by
    rw [hstore]
    unfold getPendingOperations
    simp only [List.filter_filter]
    refine List.filter_congr ?_
    intro r hr
    by_cases hu : (r.user_id == uid) = true
    · have hany : ((store.filter (fun a => succeeds a && a.user_id == uid)).any
          (fun op => op.id == r.id)) = succeeds r := by
        cases hs : succeeds r
        · rw [List.any_eq_false]
          intro op hop hopid
          have hop1 := List.mem_filter.mp hop
          have heq : op = r :=
            hinj op hop1.1 r hr (by simpa [beq_iff_eq] using hopid)
          rw [heq, hs] at hop1
          simpa using hop1.2
        · rw [List.any_eq_true]
          refine ⟨r, List.mem_filter.mpr ⟨hr, by rw [hs, hu]; rfl⟩, ?_⟩
          simp
      rw [hany]
      simp [hu, Bool.and_comm]
    · have hu2 : (r.user_id == uid) = false := by
        cases hx : r.user_id == uid
        · rfl
        · exact absurd hx hu
      simp [hu2]
  refine ⟨hmain, ?_, ?_, ?_⟩
  · have h := drainGo_failureCount succeeds (getPendingOperations store uid) ⟨0, 0, store⟩
    simpa [syncPendingOperations] using h
  · have h1 := drainGo_successCount succeeds (getPendingOperations store uid) ⟨0, 0, store⟩
    have h2 := drainGo_failureCount succeeds (getPendingOperations store uid) ⟨0, 0, store⟩
    have h3 := filter_length_split succeeds (getPendingOperations store uid)
    simp only [syncPendingOperations]
    rw [h1, h2]
    simpa using h3
  · intro op hop hs hmem
    rw [hmain] at hmem
    have := (List.mem_filter.mp hmem).2
    rw [hs] at this
    exact Bool.false_ne_true this

/-- C3 witness: the drain-pass theorem applied to the concrete two-entry
queue of user u1 with a remote that accepts only CREATE_PRESET
operations: the DELETE_PRESET operation is exactly what remains queued
afterwards. -/
theorem c3_drain_pass_semantics_witness :
    (c1Store2.map PendingOperation.id).Nodup ∧
    getPendingOperations
        (syncPendingOperations (fun op => op.type == PendingOpType.CREATE_PRESET)
          c1Store2 "u1").store "u1" =
      (getPendingOperations c1Store2 "u1").filter
        (fun op => !(op.type == PendingOpType.CREATE_PRESET)) :=
  ⟨by decide,
   (c3_drain_pass_semantics (fun op => op.type == PendingOpType.CREATE_PRESET)
      c1Store2 "u1" (by decide)).1⟩

/-- C4: after cacheFavoritePresets writes the fresh set P for user U —
with distinct preset ids, none colliding with another user's cached
record id — the cached lookup for U returns exactly the presets of P (a
permutation: the store hands them back in key order), so previously
cached presets of U outside P are gone and cannot resurface, and the
lookup of any other user V is byte-for-byte unaffected. -/
theorem c4_cache_overwrite_exact (store : List PresetRecord)
    (P : List FavoritePreset) (U : String) (now : Int)
    (hN : (P.map FavoritePreset.id).Nodup)
    (hOther : ∀ p ∈ P, ∀ r ∈ store, r.user_id ≠ U → r.id ≠ p.id) :
    List.Perm (getCachedFavoritePresets (cacheFavoritePresets store P U now) U) P ∧
    ∀ V, V ≠ U →
      getCachedFavoritePresets (cacheFavoritePresets store P U now) V =
        getCachedFavoritePresets store V := by
  have hfresh : ∀ p ∈ P, p.id ∉ (clearUserPresets store U).map PresetRecord.id := by
    intro p hp hmem
    rcases List.mem_map.mp hmem with ⟨r, hr, hid⟩
    have hrs := List.mem_filter.mp hr
    have hne : r.user_id ≠ U := by
      have h2 := hrs.2
      cases hx : r.user_id == U
      · exact fun he => by simp [he] at hx
      · rw [hx] at h2
        simp at h2
    exact hOther p hp r hrs.1 hne hid
  have hperm : List.Perm (cacheFavoritePresets store P U now)
      (P.map (fun p => presetRecord p U now) ++ clearUserPresets store U) :=
    cachePresets_foldl_perm P U now (clearUserPresets store U) hN hfresh
  constructor
  · have h1 : List.Perm
        ((cacheFavoritePresets store P U now).filter (fun r => r.user_id == U))
        ((P.map (fun p => presetRecord p U now) ++ clearUserPresets store U).filter
          (fun r => r.user_id == U)) :=
      List.Perm.filter _ hperm
    have h2 : (P.map (fun p => presetRecord p U now) ++
        clearUserPresets store U).filter (fun r => r.user_id == U) =
        P.map (fun p => presetRecord p U now) := by
      rw [List.filter_append]
      have e1 : (P.map (fun p => presetRecord p U now)).filter
          (fun r => r.user_id == U) = P.map (fun p => presetRecord p U now) := by
        rw [List.filter_eq_self]
        intro r hr
        rcases List.mem_map.mp hr with ⟨p, _, hpr⟩
        rw [← hpr]
        simp [presetRecord]
      have e2 : (clearUserPresets store U).filter (fun r => r.user_id == U) = [] := by
        unfold clearUserPresets
        rw [List.filter_filter]
        simp
      rw [e1, e2, List.append_nil]
    have h3 : (P.map (fun p => presetRecord p U now)).map PresetRecord.data = P := by
      rw [List.map_map]
      have : (PresetRecord.data ∘ fun p => presetRecord p U now) = id := by
        funext p
        rfl
      rw [this, List.map_id]
    have h4 := (h1.trans (by rw [h2])).map PresetRecord.data
    rw [h3] at h4
    exact h4
  · intro V hV
    unfold getCachedFavoritePresets
    have h5 : (cacheFavoritePresets store P U now).filter (fun r => r.user_id == V) =
        (clearUserPresets store U).filter (fun r => r.user_id == V) := by
      refine cachePresets_foldl_filter P U now (clearUserPresets store U)
        (fun r => r.user_id == V) ?_ hfresh hN
      intro p _
      show (U == V) = false
      exact beq_eq_false_iff_ne.mpr (fun he => hV he.symm)
    rw [h5]
    unfold clearUserPresets
    rw [List.filter_filter]
    refine congrArg (List.map PresetRecord.data) (List.filter_congr ?_)
    intro r _
    by_cases hu : r.user_id = V
    · have hx1 : (r.user_id == V) = true := by simp [hu]
      have hx2 : (r.user_id == U) = false := by
        simp [hu]
        exact hV
      rw [hx1, hx2]
      rfl
    · have hx1 : (r.user_id == V) = false := by simp [hu]
      rw [hx1]
      simp

/-- C4 witness: overwriting user u1's cached set [B] (with u2's record
also present) by the fresh set [A, C]: the lookup for u1 afterwards is a
permutation of [A, C]. -/
theorem c4_cache_overwrite_exact_witness :
    (([presetA, presetC].map FavoritePreset.id).Nodup) ∧
    (∀ p ∈ [presetA, presetC], ∀ r ∈ c4Store, r.user_id ≠ "u1" → r.id ≠ p.id) ∧
    List.Perm
      (getCachedFavoritePresets
        (cacheFavoritePresets c4Store [presetA, presetC] "u1" 50) "u1")
      [presetA, presetC] :=
  ⟨by decide, by decide,
   (c4_cache_overwrite_exact c4Store [presetA, presetC] "u1" 50
      (by decide) (by decide)).1⟩

/-- C5 amended: for every cached spell entry whose ttl is positive, a
read at time cached_at + ttl + 1 does not return that entry and a read at
cached_at + ttl - 1 returns it; an entry whose ttl is absent — or zero,
which the source's "!cached.ttl" test treats exactly like absent — is
returned at every read time. -/
theorem c5_amended_ttl_expiry (store : List SpellRecord) (r : SpellRecord)
    (hmem : r ∈ store) :
    (∀ t : Int, r.ttl = some t → 0 < t →
      r ∉ validSpellRecords store (r.cached_at + t + 1) ∧
      r ∈ validSpellRecords store (r.cached_at + t - 1) ∧
      r.data ∈ getCachedSpells store (r.cached_at + t - 1)) ∧
    ((r.ttl = none ∨ r.ttl = some 0) →
      ∀ now : Int, r ∈ validSpellRecords store now) := by
  constructor
  · intro t ht hpos
    have hlive : r ∈ validSpellRecords store (r.cached_at + t - 1) := by
      refine List.mem_filter.mpr ⟨hmem, ?_⟩
      rw [ht]
      simp only [entryValid, Bool.or_eq_true, beq_iff_eq, decide_eq_true_eq]
      right
      omega
    refine ⟨?_, hlive, List.mem_map.mpr ⟨r, hlive, rfl⟩⟩
    intro hin
    have h2 := (List.mem_filter.mp hin).2
    rw [ht] at h2
    simp only [entryValid, Bool.or_eq_true, beq_iff_eq, decide_eq_true_eq] at h2
    omega
  · intro hz now
    refine List.mem_filter.mpr ⟨hmem, ?_⟩
    rcases hz with h | h <;> rw [h] <;> simp [entryValid]

/-- C5 witness: the amended expiry boundaries checked on the concrete
record with ttl = 5 cached at time 0: excluded at time 6, included at
time 4. -/
theorem c5_amended_ttl_expiry_witness :
    (ttlRecord5 ∈ [ttlRecord5]) ∧ ttlRecord5.ttl = some 5 ∧ (0 : Int) < 5 ∧
    ttlRecord5 ∉ validSpellRecords [ttlRecord5] (ttlRecord5.cached_at + 5 + 1) ∧
    ttlRecord5 ∈ validSpellRecords [ttlRecord5] (ttlRecord5.cached_at + 5 - 1) := by
  have h := (c5_amended_ttl_expiry [ttlRecord5] ttlRecord5 (by decide)).1 5 rfl
    (by decide)
  exact ⟨by decide, rfl, by decide, h.1, h.2.1⟩

/-- C6 amended: the indexed preset read applies no expiry filtering: it
returns the data of every stored record of the user regardless of ttl or
read time.  In this code that never surfaces a stale entry only because
cacheFavoritePresets stores preset records without a ttl: any record of
the rewritten store either survived untouched or carries ttl = none. -/
theorem c6_amended_indexed_read_unfiltered :
    (∀ (store : List PresetRecord) (u : String) (r : PresetRecord),
      r ∈ store → r.user_id = u → r.data ∈ getCachedFavoritePresets store u) ∧
    (∀ (store : List PresetRecord) (P : List FavoritePreset) (U : String)
      (now : Int) (r : PresetRecord), r ∈ cacheFavoritePresets store P U now →
      r ∈ store ∨ r.ttl = none) := by
  constructor
  · intro store u r hr hu
    exact List.mem_map.mpr ⟨r, List.mem_filter.mpr ⟨hr, by simp [hu]⟩, rfl⟩
  · intro store P U now r hr
    rcases mem_cachePresets_foldl P U now (clearUserPresets store U) r hr with h | h
    · exact Or.inl (List.mem_filter.mp h).1
    · exact Or.inr h

/-- C6 witness: the unfiltered-read theorem applied to the expired
concrete record: the preset of an entry whose ttl has long passed is
still returned by the indexed read. -/
theorem c6_amended_indexed_read_unfiltered_witness :
    (expiredPresetRecord ∈ [expiredPresetRecord]) ∧
    expiredPresetRecord.user_id = "u1" ∧
    expiredPresetRecord.data ∈ getCachedFavoritePresets [expiredPresetRecord] "u1" :=
  ⟨by decide, rfl,
   (c6_amended_indexed_read_unfiltered).1 [expiredPresetRecord] "u1"
     expiredPresetRecord (by decide) rfl⟩

/-- C7: for a preset id carrying the reserved offline_ prefix,
updatePreset and deletePreset issue no remote call at all and leave the
pending-operation store untouched (so nothing referencing the id is
enqueued); moreover, starting from a queue with no offline_-prefixed
update or delete target, no sequence of manager operations (creates,
updates, deletes, the offline default preset, drains) ever puts one
there. -/
theorem c7_offline_ids_never_synced (id : String)
    (hid : jsStartsWith id "offline_" = true) :
    (∀ (c ok : Bool) (uid iso : String) (ms : Int) (rand : String)
        (upd : PresetUpdates) (st : HookState),
      (updatePreset c uid ok iso ms rand id upd st).calls = [] ∧
      (updatePreset c uid ok iso ms rand id upd st).state.pendingStore =
        st.pendingStore) ∧
    (∀ (c ok : Bool) (uid : String) (ms : Int) (rand : String) (st : HookState),
      (deletePreset c uid ok ms rand id st).calls = [] ∧
      (deletePreset c uid ok ms rand id st).state.pendingStore =
        st.pendingStore) ∧
    (∀ (uid : String) (acts : List Action) (st : HookState),
      hasOfflineTarget st.pendingStore = false →
      hasOfflineTarget (runActions uid acts st).pendingStore = false) := by
  refine ⟨?_, ?_, ?_⟩
  · intro c ok uid iso ms rand upd st
    constructor <;> simp [updatePreset, hid]
  · intro c ok uid ms rand st
    constructor <;> simp [deletePreset, hid]
  · intro uid acts
    induction acts with
    | nil => intro st h; exact h
    | cons a rest ih =>
      intro st h
      have hstep : runActions uid (a :: rest) st =
          runActions uid rest (Action.step uid a st) := rfl
      rw [hstep]
      refine ih (Action.step uid a st) ?_
      cases a with
      | actCreate c row iso ms rand name descr =>
        cases hc : c
        · simp only [Action.step, createPreset, hc, Bool.false_eq_true, if_false]
          simp only [addPendingOperation]
          exact hasOfflineTarget_put PendingOperation.id _ st.pendingStore rfl h
        · cases row with
          | none => simpa [Action.step, createPreset, hc] using h
          | some row => simpa [Action.step, createPreset, hc] using h
      | actUpdate c ok iso ms rand id2 upd =>
        cases hoff : jsStartsWith id2 "offline_"
        · cases hc : c
          · simp only [Action.step, updatePreset, hc, hoff, Bool.false_and,
              Bool.false_eq_true, if_false, Bool.not_false, if_true]
            simp only [addPendingOperation]
            refine hasOfflineTarget_put PendingOperation.id _ st.pendingStore ?_ h
            simp [targetsOfflineId, hoff]
          · cases hok : ok
            · simpa [Action.step, updatePreset, hc, hoff, hok] using h
            · simpa [Action.step, updatePreset, hc, hoff, hok] using h
        · simpa [Action.step, updatePreset, hoff] using h
      | actDelete c ok ms rand id2 =>
        cases hoff : jsStartsWith id2 "offline_"
        · cases hc : c
          · simp only [Action.step, deletePreset, hc, hoff, Bool.false_and,
              Bool.false_eq_true, if_false, Bool.not_false, if_true]
            simp only [addPendingOperation]
            refine hasOfflineTarget_put PendingOperation.id _ st.pendingStore ?_ h
            simp [targetsOfflineId, hoff]
          · cases hok : ok
            · simpa [Action.step, deletePreset, hc, hoff, hok] using h
            · simpa [Action.step, deletePreset, hc, hoff, hok] using h
        · simpa [Action.step, deletePreset, hoff] using h
      | actDefaultOffline iso ms rand =>
        simp only [Action.step, createDefaultOfflinePreset]
        simp only [addPendingOperation]
        exact hasOfflineTarget_put PendingOperation.id _ st.pendingStore rfl h
      | actDrain succeeds =>
        simp only [Action.step]
        have e := drainGo_store succeeds
          (getPendingOperations st.pendingStore uid) ⟨0, 0, st.pendingStore⟩
        show hasOfflineTarget
          (syncPendingOperations succeeds st.pendingStore uid).store = false
        unfold syncPendingOperations
        rw [e]
        exact hasOfflineTarget_filter _ st.pendingStore h

/-- C7 witness: on the concrete state st0 an offline update of the
offline-prefixed id issues no remote call, and running an offline update
of the remote-known id pA from an empty queue leaves the queue free of
offline_-prefixed targets. -/
theorem c7_offline_ids_never_synced_witness :
    jsStartsWith "offline_u1_5" "offline_" = true ∧
    (updatePreset false "u1" true "iso" 5 "r" "offline_u1_5"
      ⟨some "N", none, none⟩ st0).calls = [] ∧
    hasOfflineTarget st0.pendingStore = false ∧
    hasOfflineTarget
      (runActions "u1"
        [Action.actUpdate false true "iso" 5 "r" "pA" ⟨some "N", none, none⟩]
        st0).pendingStore = false := by
  have h := c7_offline_ids_never_synced "offline_u1_5" (by decide)
  exact ⟨by decide,
    (h.1 false true "u1" "iso" 5 "r" ⟨some "N", none, none⟩ st0).1,
    by decide,
    h.2.2 "u1" [Action.actUpdate false true "iso" 5 "r" "pA"
      ⟨some "N", none, none⟩] st0 (by decide)⟩

/-- C8: on the connected branch of each direct mutation, a remote failure
is returned to the caller as null (createPreset) or false (updatePreset,
deletePreset), and the local preset list and active-preset id are exactly
what they were before — no optimistic change survives the failure. -/
theorem c8_online_failure_leaves_local_state (uid iso : String) (ms : Int)
    (rand : String) (st : HookState) :
    (∀ (name : String) (descr : Option String),
      (createPreset true uid none iso ms rand name descr st).ret = none ∧
      (createPreset true uid none iso ms rand name descr st).state.presets =
        st.presets ∧
      (createPreset true uid none iso ms rand name descr st).state.activePresetId =
        st.activePresetId) ∧
    (∀ (id : String) (upd : PresetUpdates), jsStartsWith id "offline_" = false →
      (updatePreset true uid false iso ms rand id upd st).ok = false ∧
      (updatePreset true uid false iso ms rand id upd st).state.presets =
        st.presets ∧
      (updatePreset true uid false iso ms rand id upd st).state.activePresetId =
        st.activePresetId) ∧
    (∀ id : String, jsStartsWith id "offline_" = false →
      (deletePreset true uid false ms rand id st).ok = false ∧
      (deletePreset true uid false ms rand id st).state.presets = st.presets ∧
      (deletePreset true uid false ms rand id st).state.activePresetId =
        st.activePresetId) := by
  refine ⟨?_, ?_, ?_⟩
  · intro name descr
    refine ⟨?_, ?_, ?_⟩ <;> simp [createPreset]
  · intro id upd hid
    refine ⟨?_, ?_, ?_⟩ <;> simp [updatePreset, hid]
  · intro id hid
    refine ⟨?_, ?_, ?_⟩ <;> simp [deletePreset, hid]

/-- C8 witness: the theorem applied to the concrete state st0 with the
remote-known id pA: the failed online update returns false and the
presets are untouched. -/
theorem c8_online_failure_leaves_local_state_witness :
    jsStartsWith "pA" "offline_" = false ∧
    (updatePreset true "u1" false "iso" 9 "r" "pA" ⟨some "N", none, none⟩
      st0).ok = false ∧
    (updatePreset true "u1" false "iso" 9 "r" "pA" ⟨some "N", none, none⟩
      st0).state.presets = st0.presets := by
  have h := (c8_online_failure_leaves_local_state "u1" "iso" 9 "r" st0).2.1
    "pA" ⟨some "N", none, none⟩ (by decide)
  exact ⟨by decide, h.1, h.2.1⟩

/-- C10: when updatePreset takes its offline branch (not connected, or
the id carries the offline_ prefix) and no preset with the target id
exists in the current list, the call still returns true, the preset list
is unchanged (the map hits nothing), and — when the id is not
offline_-prefixed — an UPDATE_PRESET operation for the nonexistent target
is nevertheless enqueued. -/
theorem c10_offline_update_of_missing_id (c ok : Bool) (uid iso : String)
    (ms : Int) (rand : String) (id : String) (upd : PresetUpdates)
    (st : HookState)
    (hbranch : (c && !(jsStartsWith id "offline_")) = false)
    (hmissing : ∀ p ∈ st.presets, (p.id == id) = false) :
    (updatePreset c uid ok iso ms rand id upd st).ok = true ∧
    (updatePreset c uid ok iso ms rand id upd st).state.presets = st.presets ∧
    (jsStartsWith id "offline_" = false →
      ((updatePreset c uid ok iso ms rand id upd st).state.pendingStore.any
        (fun op => op.data == OpData.updatePayload id upd)) = true) := by
  have hmap : st.presets.map
      (fun p => if p.id == id then
        { applyUpdates p upd with updated_at := iso } else p) = st.presets := by
    have hpoint : ∀ p ∈ st.presets,
        (if p.id == id then
          { applyUpdates p upd with updated_at := iso } else p) = p := by
      intro p hp
      rw [hmissing p hp]
      simp
    rw [List.map_congr_left hpoint]
    exact List.map_id st.presets
  refine ⟨?_, ?_, ?_⟩
  · simp only [updatePreset]
    rw [hbranch]
    rw [if_neg (by simp : ¬ (false = true))]
    split <;> rfl
  · simp only [updatePreset]
    rw [hbranch]
    rw [if_neg (by simp : ¬ (false = true))]
    split <;> exact hmap
  · intro hoff
    simp only [updatePreset]
    rw [hbranch, hoff]
    rw [if_neg (by simp : ¬ (false = true))]
    rw [if_pos (by decide : (!false) = true)]
    simp only [addPendingOperation]
    rw [List.any_eq_true]
    exact ⟨_, self_mem_putSorted PendingOperation.id _ st.pendingStore, by simp⟩

/-- C10 witness: the theorem applied to st0 (presets pA, pB) with the
absent id zz while offline: the update reports success, changes nothing
locally, and enqueues an UPDATE_PRESET for zz. -/
theorem c10_offline_update_of_missing_id_witness :
    ((false && !(jsStartsWith "zz" "offline_")) = false) ∧
    (∀ p ∈ st0.presets, (p.id == "zz") = false) ∧
    (updatePreset false "u1" true "iso" 7 "r" "zz" ⟨some "N", none, none⟩
      st0).ok = true ∧
    (updatePreset false "u1" true "iso" 7 "r" "zz" ⟨some "N", none, none⟩
      st0).state.presets = st0.presets ∧
    ((updatePreset false "u1" true "iso" 7 "r" "zz" ⟨some "N", none, none⟩
      st0).state.pendingStore.any
        (fun op => op.data == OpData.updatePayload "zz"
          ⟨some "N", none, none⟩)) = true := by
  have h := c10_offline_update_of_missing_id false true "u1" "iso" 7 "r" "zz"
    ⟨some "N", none, none⟩ st0 (by decide) (by decide)
  exact ⟨by decide, by decide, h.1, h.2.1, h.2.2 (by decide)⟩

end GrimoireSync
